import Mathlib

/-!
Verification of the deployment-orchestration backend.

This file shallowly embeds the parts of the TypeScript source needed to
settle the frozen claims: the deployment lifecycle state machine
(models/Deployment), the port allocator (services/PortManager), the secrets
codec and its field-level helpers (utils/crypto, models/Deployment), the
spawn retry logic (services/DockerService), the reconciler sweep
(services/ReaperService), and the subdomain router (middleware/proxy).

Strings from the source are modelled as lists of characters; machine
"byte" values are modelled as `Fin 256`.  The AES-256-GCM primitive used by
the secrets codec is external library code (Node `crypto`); it is modelled
as a structure `AeadCipher` carrying the authenticated-encryption contract
the source relies on, together with a concrete executable instance
`toyAead` showing the contract is satisfiable.  All token formatting,
parsing, validation and classification logic is translated directly from
the source.
-/

namespace Backend

/-! ## Deployment data model (src: types + models/Deployment) -/

inductive DeploymentStatus
  | idle
  | configuring
  | provisioning
  | starting
  | healthy
  | stopped
  | error
  | restarting
deriving DecidableEq, Repr, Fintype

open DeploymentStatus in
/-- Source: `VALID_STATE_TRANSITIONS` in models/Deployment. -/
def VALID_STATE_TRANSITIONS : DeploymentStatus → List DeploymentStatus
  | idle => [idle, configuring, provisioning, error]
  | configuring => [configuring, provisioning, error]
  | provisioning => [provisioning, starting, error]
  | starting => [starting, healthy, error]
  | healthy => [healthy, stopped, restarting, error]
  | stopped => [stopped, configuring, idle, error, starting]
  | restarting => [restarting, starting, healthy, error]
  | error => [error, configuring, idle, restarting, stopped]

/-- A deployment document (the fields the verified operations touch). -/
structure DeploymentRecord where
  id : Nat
  subdomain : List Char
  status : DeploymentStatus
  containerId : Option String
  internalPort : Option Nat
  errorMessage : Option String
  provisioningStep : Option String
  lastHeartbeat : Option Nat
deriving DecidableEq, Repr

/-- Source: `DeploymentSchema.methods.transitionTo`.  The mongoose document
throws (leaving the record untouched) on an edge absent from
`VALID_STATE_TRANSITIONS`; otherwise it mutates the document and saves.
`now` stands for `new Date()`. -/
def transitionTo (d : DeploymentRecord) (newStatus : DeploymentStatus)
    (optErrorMessage : Option String) (optProvisioningStep : Option String)
    (now : Nat) : Except String DeploymentRecord :=
  if (VALID_STATE_TRANSITIONS d.status).contains newStatus then
    let d1 : DeploymentRecord := { d with status := newStatus }
    let d2 : DeploymentRecord :=
      match optErrorMessage with
      | some m => if m = "" then d1 else { d1 with errorMessage := some m }
      | none => d1
    let d3 : DeploymentRecord :=
      match optProvisioningStep with
      | some s => { d2 with provisioningStep := some s }
      | none => d2
    let d4 : DeploymentRecord :=
      if newStatus = DeploymentStatus.healthy then
        { d3 with errorMessage := none, lastHeartbeat := some now }
      else d3
    Except.ok d4
  else
    Except.error "Invalid state transition"

open DeploymentStatus in
/-- Modelled from the spec's words: the edge list of the section-4.2
transition table (self-transitions listed separately by the spec). -/
def specTableNext : DeploymentStatus → List DeploymentStatus
  | idle => [configuring, provisioning, error]
  | configuring => [provisioning, error]
  | provisioning => [starting, error]
  | starting => [healthy, error]
  | healthy => [stopped, restarting, error]
  | stopped => [configuring, idle, starting, error]
  | restarting => [starting, healthy, error]
  | error => [configuring, idle, restarting, stopped]

/-- Modelled from the spec's words: each state permits self-transition plus
the edges of the section-4.2 table. -/
def specPermits (cur tgt : DeploymentStatus) : Bool :=
  tgt = cur || (specTableNext cur).contains tgt

/-! ## Theorems: state machine -/

theorem valid_contains_eq_specPermits (s t : DeploymentStatus) :
    (VALID_STATE_TRANSITIONS s).contains t = specPermits s t := by
  revert s t; decide

/-- C1: for every deployment record and every target state, `transitionTo`
succeeds exactly when the target is the current state itself or an allowed
next state of the section-4.2 table, and on any other target it returns the
invalid-transition error without producing an updated record (the thrown
error leaves the stored document unchanged). -/
theorem c1_transitionTo_matches_spec_table (d : DeploymentRecord)
    (tgt : DeploymentStatus) (em ps : Option String) (now : Nat) :
    ((transitionTo d tgt em ps now).isOk = specPermits d.status tgt)
    ∧ (specPermits d.status tgt = false →
        transitionTo d tgt em ps now = Except.error "Invalid state transition") := by
  unfold transitionTo
  rw [valid_contains_eq_specPermits]
  cases h : specPermits d.status tgt <;> simp [Except.isOk, Except.toBool]

/-! ## Port allocator (src: services/PortManager) -/

/-- Statuses excluded by `getUsedPorts`'s query
`status: { $nin: ['stopped', 'error', 'idle'] }`. -/
def isPortTerminalStatus : DeploymentStatus → Bool
  | DeploymentStatus.stopped => true
  | DeploymentStatus.error => true
  | DeploymentStatus.idle => true
  | _ => false

/-- Source: `PortManager.getUsedPorts` — ports of deployments that are not
in a terminal status and have an `internalPort` set. -/
def getUsedPorts (store : List DeploymentRecord) : List Nat :=
  store.filterMap (fun d =>
    if isPortTerminalStatus d.status then none else d.internalPort)

/-- The scan loop of `PortManager.findAvailablePort`, with the remaining
range size as fuel (`for (port = MIN; port <= MAX; port++)`). -/
def findFromPort (usedPorts : List Nat) : Nat → Nat → Option Nat
  | _, 0 => none
  | p, n + 1 =>
    if usedPorts.contains p then findFromPort usedPorts (p + 1) n else some p

/-- Source: `PortManager.findAvailablePort` over the range
`[minPort, maxPort]`. -/
def findAvailablePort (minPort maxPort : Nat) (usedPorts : List Nat) :
    Option Nat :=
  findFromPort usedPorts minPort (maxPort + 1 - minPort)

/-- The one piece of in-process mutable state of the allocator: the
in-flight reservation set. -/
structure PortManagerState where
  inFlightReservations : List Nat
deriving DecidableEq, Repr

/-- Source: `PortManager.allocatePort` — union the store's used ports with
the in-flight set, take the first free port of the range, reserve it
in-flight; throw `PortAllocationError` when the scan finds nothing. -/
def allocatePort (minPort maxPort : Nat) (store : List DeploymentRecord)
    (st : PortManagerState) : Except String (Nat × PortManagerState) :=
  match findAvailablePort minPort maxPort
      (getUsedPorts store ++ st.inFlightReservations) with
  | none => Except.error "PortAllocationError: No available ports in range"
  | some p => Except.ok (p, ⟨p :: st.inFlightReservations⟩)

/-- Source: `PortManager.releasePort` — removes from the in-flight set
only. -/
def releasePort (st : PortManagerState) (port : Nat) : PortManagerState :=
  ⟨st.inFlightReservations.erase port⟩

/-- N sequential `allocatePort` calls against a fixed store, threading the
in-flight state. -/
def allocateSequence (minPort maxPort : Nat) (store : List DeploymentRecord) :
    Nat → PortManagerState → List (Except String Nat) × PortManagerState
  | 0, st => ([], st)
  | n + 1, st =>
    match allocatePort minPort maxPort store st with
    | Except.ok (p, st1) =>
      let r := allocateSequence minPort maxPort store n st1
      (Except.ok p :: r.1, r.2)
    | Except.error e =>
      let r := allocateSequence minPort maxPort store n st
      (Except.error e :: r.1, r.2)

/-- The successfully returned ports of a call sequence. -/
def okPorts : List (Except String Nat) → List Nat
  | [] => []
  | Except.ok p :: rs => p :: okPorts rs
  | Except.error _ :: rs => okPorts rs

/-! ## Theorems: port allocator -/

theorem findFromPort_some (usedPorts : List Nat) :
    ∀ (n p q : Nat), findFromPort usedPorts p n = some q →
      usedPorts.contains q = false ∧ p ≤ q ∧ q < p + n
      ∧ ∀ r, p ≤ r → r < q → usedPorts.contains r = true := by
  intro n
  induction n with
  | zero => intro p q h; simp [findFromPort] at h
  | succ n ih =>
    intro p q h
    by_cases hc : usedPorts.contains p = true
    · rw [findFromPort, if_pos hc] at h
      obtain ⟨h1, h2, h3, h4⟩ := ih (p + 1) q h
      refine ⟨h1, by omega, by omega, ?_⟩
      intro r hr1 hr2
      rcases Nat.eq_or_lt_of_le hr1 with hr | hr
      · exact hr ▸ hc
      · exact h4 r (by omega) hr2
    · rw [findFromPort, if_neg hc] at h
      cases h
      refine ⟨by simpa using hc, Nat.le_refl _, by omega, ?_⟩
      intro r hr1 hr2
      omega

theorem findFromPort_none (usedPorts : List Nat) :
    ∀ (n p : Nat), (∀ r, p ≤ r → r < p + n → usedPorts.contains r = true) →
      findFromPort usedPorts p n = none := by
  intro n
  induction n with
  | zero => intro p _; rfl
  | succ n ih =>
    intro p hall
    have hc : usedPorts.contains p = true := hall p (Nat.le_refl _) (by omega)
    rw [findFromPort, if_pos hc]
    exact ih (p + 1) (fun r hr1 hr2 => hall r (by omega) (by omega))

theorem allocatePort_ok (minPort maxPort : Nat) (store : List DeploymentRecord)
    (st : PortManagerState) (p : Nat) (st1 : PortManagerState)
    (h : allocatePort minPort maxPort store st = Except.ok (p, st1)) :
    minPort ≤ p ∧ p ≤ maxPort
    ∧ (getUsedPorts store ++ st.inFlightReservations).contains p = false
    ∧ (∀ q, minPort ≤ q → q < p →
        (getUsedPorts store ++ st.inFlightReservations).contains q = true)
    ∧ st1 = ⟨p :: st.inFlightReservations⟩ := by
  unfold allocatePort at h
  cases hf : findAvailablePort minPort maxPort
      (getUsedPorts store ++ st.inFlightReservations) with
  | none => rw [hf] at h; cases h
  | some p0 =>
    rw [hf] at h
    cases h
    obtain ⟨h1, h2, h3, h4⟩ := findFromPort_some _ _ _ _ hf
    exact ⟨h2, by omega, h1, h4, rfl⟩

theorem allocateSequence_fresh (minPort maxPort : Nat)
    (store : List DeploymentRecord) :
    ∀ (n : Nat) (st : PortManagerState),
      (okPorts (allocateSequence minPort maxPort store n st).1).Nodup
      ∧ ∀ x ∈ okPorts (allocateSequence minPort maxPort store n st).1,
          x ∉ st.inFlightReservations := by
  intro n
  induction n with
  | zero =>
    intro st
    simp [allocateSequence, okPorts]
  | succ n ih =>
    intro st
    cases ha : allocatePort minPort maxPort store st with
    | ok pr =>
      obtain ⟨p, st1⟩ := pr
      obtain ⟨_, _, hfree, _, hst1⟩ :=
        allocatePort_ok minPort maxPort store st p st1 ha
      subst hst1
      have hp_notin : p ∉ st.inFlightReservations := by
        intro hmem
        have : (getUsedPorts store ++ st.inFlightReservations).contains p
            = true := by
          simp [List.mem_append, hmem]
        rw [hfree] at this
        cases this
      obtain ⟨ihnd, ihfresh⟩ := ih ⟨p :: st.inFlightReservations⟩
      constructor
      · simp only [allocateSequence, ha, okPorts]
        refine List.Nodup.cons ?_ ihnd
        intro hmem
        have := ihfresh p hmem
        simp at this
      · intro x hx
        simp only [allocateSequence, ha, okPorts, List.mem_cons] at hx
        rcases hx with hx | hx
        · exact hx ▸ hp_notin
        · have := ihfresh x hx
          simp only [List.mem_cons, not_or] at this
          exact this.2
    | error e =>
      obtain ⟨ihnd, ihfresh⟩ := ih st
      constructor
      · simp only [allocateSequence, ha, okPorts]
        exact ihnd
      · intro x hx
        simp only [allocateSequence, ha, okPorts] at hx
        exact ihfresh x hx

/-- C2: `allocatePort` returns the lowest port of `[minPort, maxPort]` that
is neither used by a non-terminal deployment of the store nor in-flight,
and pushes it onto the in-flight set; the successful results of any number
of sequential allocations are pairwise distinct; and when every port of the
range is used or in-flight the call fails with the `PortAllocationError`
resource-exhaustion error. -/
theorem c2_allocatePort_correct :
    (∀ (minPort maxPort : Nat) (store : List DeploymentRecord)
        (st : PortManagerState) (p : Nat) (st1 : PortManagerState),
      allocatePort minPort maxPort store st = Except.ok (p, st1) →
        minPort ≤ p ∧ p ≤ maxPort
        ∧ (getUsedPorts store ++ st.inFlightReservations).contains p = false
        ∧ (∀ q, minPort ≤ q → q < p →
            (getUsedPorts store ++ st.inFlightReservations).contains q = true)
        ∧ st1 = ⟨p :: st.inFlightReservations⟩)
    ∧ (∀ (minPort maxPort : Nat) (store : List DeploymentRecord)
        (st : PortManagerState) (n : Nat),
        (okPorts (allocateSequence minPort maxPort store n st).1).Nodup)
    ∧ (∀ (minPort maxPort : Nat) (store : List DeploymentRecord)
        (st : PortManagerState),
        (∀ q, minPort ≤ q → q ≤ maxPort →
          (getUsedPorts store ++ st.inFlightReservations).contains q = true) →
        allocatePort minPort maxPort store st
          = Except.error "PortAllocationError: No available ports in range") := by
  refine ⟨allocatePort_ok, ?_, ?_⟩
  · intro minPort maxPort store st n
    exact (allocateSequence_fresh minPort maxPort store n st).1
  · intro minPort maxPort store st hall
    unfold allocatePort
    have hnone : findAvailablePort minPort maxPort
        (getUsedPorts store ++ st.inFlightReservations) = none := by
      apply findFromPort_none
      intro r hr1 hr2
      exact hall r hr1 (by omega)
    rw [hnone]

/-- Witness for C2 at concrete inputs: in range `[10, 11]` over an empty
store and empty in-flight set the first allocation hands out port 10, and
with port 10 in-flight the range `[10, 10]` is exhausted. -/
theorem c2_allocatePort_correct_witness :
    (getUsedPorts [] ++ (PortManagerState.mk []).inFlightReservations).contains
        10 = false
    ∧ allocatePort 10 10 [] (PortManagerState.mk [10])
      = Except.error "PortAllocationError: No available ports in range" := by
  constructor
  · exact (c2_allocatePort_correct.1 10 11 [] ⟨[]⟩ 10 ⟨[10]⟩ rfl).2.2.1
  · refine c2_allocatePort_correct.2.2 10 10 [] ⟨[10]⟩ ?_
    intro q h1 h2
    have hq : q = 10 := by omega
    subst hq
    decide

/-! ## Secrets codec (src: utils/crypto) -/

abbrev Byte := Fin 256

/-- Source: `config.encryption.ivLength`. -/
def IV_LENGTH : Nat := 12

/-- Source: `config.encryption.authTagLength`. -/
def AUTH_TAG_LENGTH : Nat := 16

/-- Lowercase hex digit for a value below 16 (Node buffers hex-encode in
lowercase). -/
def hexDigitChar (n : Nat) : Char :=
  if n < 10 then Char.ofNat (48 + n) else Char.ofNat (87 + n)

def byteToHex (b : Byte) : List Char :=
  [hexDigitChar (b.val / 16), hexDigitChar (b.val % 16)]

/-- Hex encoding of a byte string (`Buffer.toString('hex')`). -/
def bytesToHex : List Byte → List Char
  | [] => []
  | b :: bs => byteToHex b ++ bytesToHex bs

/-- One character of the pattern `[0-9a-fA-F]`. -/
def isHexDigit (c : Char) : Bool :=
  (decide ('0' ≤ c) && decide (c ≤ '9'))
  || (decide ('a' ≤ c) && decide (c ≤ 'f'))
  || (decide ('A' ≤ c) && decide (c ≤ 'F'))

/-- Source: `CryptoService.isValidHex`, the test `/^[a-f0-9]*$/i` (empty
accepted). -/
def isValidHex (s : List Char) : Bool := s.all isHexDigit

def hexDigitVal (c : Char) : Nat :=
  if decide ('0' ≤ c) && decide (c ≤ '9') then c.toNat - 48
  else if decide ('a' ≤ c) && decide (c ≤ 'f') then c.toNat - 87
  else if decide ('A' ≤ c) && decide (c ≤ 'F') then c.toNat - 55
  else 0

/-- Hex decoding of a character string (`Buffer.from(str, 'hex')`); a
trailing lone nibble is dropped, as Node does. -/
def hexToBytes : List Char → List Byte
  | c1 :: c2 :: rest =>
    (⟨(hexDigitVal c1 * 16 + hexDigitVal c2) % 256,
      Nat.mod_lt _ (by omega)⟩ : Byte) :: hexToBytes rest
  | _ => []

/-- JavaScript `String.prototype.split` with a one-character separator. -/
def splitOnChar (sep : Char) : List Char → List (List Char)
  | [] => [[]]
  | c :: rest =>
    if c = sep then [] :: splitOnChar sep rest
    else
      match splitOnChar sep rest with
      | [] => [[c]]
      | h :: t => (c :: h) :: t

/-- JavaScript `String.prototype.includes`. -/
def containsSub (needle : List Char) : List Char → Bool
  | [] => needle.isEmpty
  | c :: rest => needle.isPrefixOf (c :: rest) || containsSub needle rest

/-- The authenticated-encryption contract of the external AES-256-GCM
primitive (Node `crypto` `createCipheriv`/`createDecipheriv`), on which the
source's token logic relies: `enc key iv plaintext` yields
`(ciphertext, authTag)`; `dec` returns `none` exactly when authentication
fails, in which case the runtime throws an exception whose message is
`authFailMsg`.  The contract fields are the GCM guarantees the source
assumes: decryption inverts encryption, the tag has the configured length,
and any single-byte change to ciphertext or tag makes authentication
fail. -/
structure AeadCipher where
  enc : List Byte → List Byte → List Byte → List Byte × List Byte
  dec : List Byte → List Byte → List Byte → List Byte → Option (List Byte)
  authFailMsg : List Char
  tag_len : ∀ k iv p, (enc k iv p).2.length = AUTH_TAG_LENGTH
  ct_ne_nil : ∀ k iv p, p ≠ [] → (enc k iv p).1 ≠ []
  dec_enc : ∀ k iv p, dec k iv (enc k iv p).1 (enc k iv p).2 = some p
  dec_tamper_ct : ∀ k iv p i b, ∀ h : i < (enc k iv p).1.length,
    b ≠ (enc k iv p).1.get ⟨i, h⟩ →
    dec k iv ((enc k iv p).1.set i b) (enc k iv p).2 = none
  dec_tamper_tag : ∀ k iv p t, t ≠ (enc k iv p).2 →
    dec k iv (enc k iv p).1 t = none

/-- Source: `CryptoService.encrypt` — the token
`iv_hex:auth_tag_hex:ciphertext_hex`.  The per-call random nonce is the
`iv` argument. -/
def cryptoEncrypt (G : AeadCipher) (key iv p : List Byte) : List Char :=
  bytesToHex iv
    ++ ':' :: (bytesToHex (G.enc key iv p).2 ++ ':' :: bytesToHex (G.enc key iv p).1)

/-- The two failure classes thrown by `CryptoService.decrypt`:
`EncryptionError` and `TamperedDataError`. -/
inductive DecryptFailure
  | encryptionError (msg : List Char)
  | tamperedData
deriving DecidableEq, Repr

/-- Source: the `catch` classification at the end of
`CryptoService.decrypt` — a thrown runtime error is re-raised as
`TamperedDataError` when its message mentions the authentication tag, and
as a generic `EncryptionError` otherwise. -/
def classifyThrownError (msg : List Char) : DecryptFailure :=
  if containsSub ("auth tag".toList) msg
      || containsSub ("authentication".toList) msg then
    DecryptFailure.tamperedData
  else
    DecryptFailure.encryptionError ("Failed to decrypt data".toList)

/-- The body of `CryptoService.decrypt` after the `split(':')` produced
exactly three parts: hex validation, IV and tag length checks, then the
authenticated decryption primitive. -/
def decryptParts (G : AeadCipher) (key : List Byte)
    (ivHex authTagHex ciphertext : List Char) :
    Except DecryptFailure (List Byte) :=
  if isValidHex ivHex && isValidHex authTagHex && isValidHex ciphertext then
    if (hexToBytes ivHex).length = IV_LENGTH then
      if (hexToBytes authTagHex).length = AUTH_TAG_LENGTH then
        match G.dec key (hexToBytes ivHex) (hexToBytes ciphertext)
            (hexToBytes authTagHex) with
        | some plaintext => Except.ok plaintext
        | none => Except.error (classifyThrownError G.authFailMsg)
      else
        Except.error
          (DecryptFailure.encryptionError ("Invalid auth tag length".toList))
    else
      Except.error
        (DecryptFailure.encryptionError ("Invalid IV length".toList))
  else
    Except.error (DecryptFailure.encryptionError
      ("Invalid hex encoding in encrypted data".toList))

/-- Source: `CryptoService.decrypt` — split on `:`, require exactly three
segments, then proceed as `decryptParts`. -/
def cryptoDecrypt (G : AeadCipher) (key : List Byte)
    (encryptedData : List Char) : Except DecryptFailure (List Byte) :=
  match splitOnChar ':' encryptedData with
  | [ivHex, authTagHex, ciphertext] =>
    decryptParts G key ivHex authTagHex ciphertext
  | _ =>
    Except.error (DecryptFailure.encryptionError
      ("Invalid encrypted data format".toList))

/-! ## Theorems: hex and token format -/

theorem hexDigit_roundtrip : ∀ n : Fin 16,
    hexDigitVal (hexDigitChar n.val) = n.val
    ∧ isHexDigit (hexDigitChar n.val) = true
    ∧ hexDigitChar n.val ≠ ':' := by decide

theorem hexPair_val (b : Byte) :
    (hexDigitVal (hexDigitChar (b.val / 16)) * 16
      + hexDigitVal (hexDigitChar (b.val % 16))) % 256 = b.val := by
  have hb := b.isLt
  have h1 : hexDigitVal (hexDigitChar (b.val / 16)) = b.val / 16 :=
    (hexDigit_roundtrip ⟨b.val / 16, by omega⟩).1
  have h2 : hexDigitVal (hexDigitChar (b.val % 16)) = b.val % 16 :=
    (hexDigit_roundtrip ⟨b.val % 16, by omega⟩).1
  rw [h1, h2]
  omega

theorem bytesToHex_cons (b : Byte) (bs : List Byte) :
    bytesToHex (b :: bs)
      = hexDigitChar (b.val / 16) :: hexDigitChar (b.val % 16)
        :: bytesToHex bs := rfl

theorem hexToBytes_bytesToHex : ∀ bs : List Byte,
    hexToBytes (bytesToHex bs) = bs
  | [] => rfl
  | b :: bs => by
    rw [bytesToHex_cons]
    simp only [hexToBytes, hexToBytes_bytesToHex bs]
    congr 1
    exact Fin.ext (hexPair_val b)

theorem bytesToHex_valid : ∀ bs : List Byte,
    isValidHex (bytesToHex bs) = true
  | [] => rfl
  | b :: bs => by
    have hb := b.isLt
    have h1 : isHexDigit (hexDigitChar (b.val / 16)) = true :=
      (hexDigit_roundtrip ⟨b.val / 16, by omega⟩).2.1
    have h2 : isHexDigit (hexDigitChar (b.val % 16)) = true :=
      (hexDigit_roundtrip ⟨b.val % 16, by omega⟩).2.1
    rw [bytesToHex_cons]
    simp only [isValidHex, List.all_cons, h1, h2, Bool.true_and]
    exact bytesToHex_valid bs

theorem colon_not_mem_bytesToHex : ∀ bs : List Byte,
    ':' ∉ bytesToHex bs
  | [] => by simp [bytesToHex]
  | b :: bs => by
    have hb := b.isLt
    have h1 : hexDigitChar (b.val / 16) ≠ ':' :=
      (hexDigit_roundtrip ⟨b.val / 16, by omega⟩).2.2
    have h2 : hexDigitChar (b.val % 16) ≠ ':' :=
      (hexDigit_roundtrip ⟨b.val % 16, by omega⟩).2.2
    rw [bytesToHex_cons]
    simp only [List.mem_cons, not_or]
    exact ⟨fun e => h1 e.symm, fun e => h2 e.symm, colon_not_mem_bytesToHex bs⟩

theorem splitOnChar_no_sep (sep : Char) :
    ∀ l : List Char, sep ∉ l → splitOnChar sep l = [l] := by
  intro l
  induction l with
  | nil => intro _; rfl
  | cons c rest ih =>
    intro h
    have hc : ¬(c = sep) := fun e => h (e ▸ List.mem_cons_self _ _)
    have hrest : sep ∉ rest := fun m => h (List.mem_cons_of_mem _ m)
    simp only [splitOnChar, if_neg hc, ih hrest]

theorem splitOnChar_append (sep : Char) :
    ∀ (a rest : List Char), sep ∉ a →
      splitOnChar sep (a ++ sep :: rest) = a :: splitOnChar sep rest := by
  intro a
  induction a with
  | nil =>
    intro rest _
    simp [splitOnChar]
  | cons c a ih =>
    intro rest h
    have hc : ¬(c = sep) := fun e => h (e ▸ List.mem_cons_self _ _)
    have ha : sep ∉ a := fun m => h (List.mem_cons_of_mem _ m)
    rw [List.cons_append]
    simp only [splitOnChar, if_neg hc]
    rw [ih rest ha]

theorem splitOnChar_token (A B C : List Char)
    (hA : ':' ∉ A) (hB : ':' ∉ B) (hC : ':' ∉ C) :
    splitOnChar ':' (A ++ ':' :: (B ++ ':' :: C)) = [A, B, C] := by
  rw [splitOnChar_append _ _ _ hA, splitOnChar_append _ _ _ hB,
    splitOnChar_no_sep _ _ hC]

theorem set_ne_self {α : Type} :
    ∀ (l : List α) (j : Nat) (b : α) (h : j < l.length),
      b ≠ l.get ⟨j, h⟩ → l.set j b ≠ l
  | a :: l, 0, b, _, hb => by
    simp only [List.set, List.get]
    intro he
    simp only [List.cons.injEq] at he
    exact hb he.1
  | a :: l, j + 1, b, h, hb => by
    have hj : j < l.length := by
      have := h
      simp only [List.length_cons] at this
      omega
    simp only [List.set, List.get] at *
    intro he
    simp only [List.cons.injEq] at he
    exact set_ne_self l j b hj hb he.2

theorem classify_tamper (msg : List Char)
    (h : containsSub ("auth tag".toList) msg = true
        ∨ containsSub ("authentication".toList) msg = true) :
    classifyThrownError msg = DecryptFailure.tamperedData := by
  unfold classifyThrownError
  rcases h with h | h <;> rw [h] <;> simp

theorem cryptoDecrypt_of_split (G : AeadCipher) (key : List Byte)
    (t A B C : List Char) (hs : splitOnChar ':' t = [A, B, C]) :
    cryptoDecrypt G key t = decryptParts G key A B C := by
  unfold cryptoDecrypt
  rw [hs]

/-- C3: decrypting an encryption of any plaintext with any nonce of the
configured length recovers exactly that plaintext, and the produced token
is a three-part colon-separated hex string
`nonce_hex : tag_hex : ciphertext_hex`. -/
theorem c3_decrypt_encrypt_roundtrip (G : AeadCipher) (key iv p : List Byte)
    (hiv : iv.length = IV_LENGTH) :
    cryptoDecrypt G key (cryptoEncrypt G key iv p) = Except.ok p
    ∧ splitOnChar ':' (cryptoEncrypt G key iv p)
      = [bytesToHex iv, bytesToHex (G.enc key iv p).2,
          bytesToHex (G.enc key iv p).1]
    ∧ (splitOnChar ':' (cryptoEncrypt G key iv p)).all isValidHex = true := by
  have hsplit := splitOnChar_token (bytesToHex iv)
    (bytesToHex (G.enc key iv p).2) (bytesToHex (G.enc key iv p).1)
    (colon_not_mem_bytesToHex _) (colon_not_mem_bytesToHex _)
    (colon_not_mem_bytesToHex _)
  refine ⟨?_, hsplit, ?_⟩
  · unfold cryptoEncrypt
    rw [cryptoDecrypt_of_split G key _ _ _ _ hsplit]
    unfold decryptParts
    rw [bytesToHex_valid, bytesToHex_valid, bytesToHex_valid]
    simp only [Bool.and_self, if_true]
    rw [hexToBytes_bytesToHex, hexToBytes_bytesToHex, hexToBytes_bytesToHex,
      if_pos hiv, if_pos (G.tag_len key iv p), G.dec_enc key iv p]
  · unfold cryptoEncrypt
    rw [hsplit]
    simp [bytesToHex_valid]

/-- C4: for a token produced by `encrypt`, replacing any single byte of the
ciphertext component or of the authentication-tag component by a different
byte makes `decrypt` fail with the integrity error (`TamperedDataError`) —
it neither returns a wrong plaintext nor reports a format error.  The
hypothesis on `authFailMsg` states that the runtime's
authentication-failure exception message is one the source's `catch`
classification recognizes. -/
theorem c4_tamper_yields_integrity_error (G : AeadCipher)
    (key iv p : List Byte) (hiv : iv.length = IV_LENGTH)
    (hmsg : containsSub ("auth tag".toList) G.authFailMsg = true
        ∨ containsSub ("authentication".toList) G.authFailMsg = true) :
    (∀ (i : Nat) (b : Byte), ∀ h : i < (G.enc key iv p).1.length,
      b ≠ (G.enc key iv p).1.get ⟨i, h⟩ →
      cryptoDecrypt G key
        (bytesToHex iv ++ ':' :: (bytesToHex (G.enc key iv p).2
          ++ ':' :: bytesToHex ((G.enc key iv p).1.set i b)))
        = Except.error DecryptFailure.tamperedData)
    ∧ (∀ (j : Nat) (b : Byte), ∀ h : j < (G.enc key iv p).2.length,
      b ≠ (G.enc key iv p).2.get ⟨j, h⟩ →
      cryptoDecrypt G key
        (bytesToHex iv ++ ':' :: (bytesToHex ((G.enc key iv p).2.set j b)
          ++ ':' :: bytesToHex (G.enc key iv p).1))
        = Except.error DecryptFailure.tamperedData) := by
  constructor
  · intro i b h hb
    have hsplit := splitOnChar_token (bytesToHex iv)
      (bytesToHex (G.enc key iv p).2)
      (bytesToHex ((G.enc key iv p).1.set i b))
      (colon_not_mem_bytesToHex _) (colon_not_mem_bytesToHex _)
      (colon_not_mem_bytesToHex _)
    rw [cryptoDecrypt_of_split G key _ _ _ _ hsplit]
    unfold decryptParts
    rw [bytesToHex_valid, bytesToHex_valid, bytesToHex_valid]
    simp only [Bool.and_self, if_true]
    rw [hexToBytes_bytesToHex, hexToBytes_bytesToHex, hexToBytes_bytesToHex,
      if_pos hiv, if_pos (G.tag_len key iv p),
      G.dec_tamper_ct key iv p i b h hb, classify_tamper _ hmsg]
  · intro j b h hb
    have hsplit := splitOnChar_token (bytesToHex iv)
      (bytesToHex ((G.enc key iv p).2.set j b))
      (bytesToHex (G.enc key iv p).1)
      (colon_not_mem_bytesToHex _) (colon_not_mem_bytesToHex _)
      (colon_not_mem_bytesToHex _)
    rw [cryptoDecrypt_of_split G key _ _ _ _ hsplit]
    unfold decryptParts
    rw [bytesToHex_valid, bytesToHex_valid, bytesToHex_valid]
    simp only [Bool.and_self, if_true]
    have htaglen : ((G.enc key iv p).2.set j b).length = AUTH_TAG_LENGTH := by
      rw [List.length_set]
      exact G.tag_len key iv p
    rw [hexToBytes_bytesToHex, hexToBytes_bytesToHex, hexToBytes_bytesToHex,
      if_pos hiv, if_pos htaglen,
      G.dec_tamper_tag key iv p _ (set_ne_self _ j b h hb),
      classify_tamper _ hmsg]

/-! ## A concrete instance of the AEAD contract

`toyAead` is an executable cipher satisfying `AeadCipher` (ciphertext is
the elementwise-duplicated plaintext, the tag is constant, decryption
checks the duplication): it shows the contract is satisfiable and lets the
round-trip and tamper theorems be evaluated on concrete inputs. -/

def zeroTag : List Byte := List.replicate AUTH_TAG_LENGTH 0

def dupBytes : List Byte → List Byte
  | [] => []
  | x :: xs => x :: x :: dupBytes xs

def undupBytes : List Byte → Option (List Byte)
  | [] => some []
  | x :: y :: rest =>
    if x = y then (undupBytes rest).map (fun zs => x :: zs) else none
  | _ => none

theorem undup_dup : ∀ p : List Byte, undupBytes (dupBytes p) = some p
  | [] => rfl
  | x :: xs => by
    simp [dupBytes, undupBytes, undup_dup xs]

theorem dupBytes_length : ∀ p : List Byte,
    (dupBytes p).length = 2 * p.length
  | [] => rfl
  | x :: xs => by
    simp only [dupBytes, List.length_cons, dupBytes_length xs]
    omega

theorem undup_set_ne :
    ∀ (p : List Byte) (i : Nat) (b : Byte) (h : i < (dupBytes p).length),
      b ≠ (dupBytes p).get ⟨i, h⟩ →
      undupBytes ((dupBytes p).set i b) = none
  | [], i, b, h, _ => by simp [dupBytes] at h
  | x :: xs, 0, b, h, hb => by
    simp only [dupBytes, List.get] at hb
    simp only [dupBytes, List.set, undupBytes]
    rw [if_neg hb]
  | x :: xs, 1, b, h, hb => by
    simp only [dupBytes, List.get] at hb
    simp only [dupBytes, List.set, undupBytes]
    rw [if_neg (fun e => hb e.symm)]
  | x :: xs, j + 2, b, h, hb => by
    have h2 : j < (dupBytes xs).length := by
      have := h
      simp only [dupBytes, List.length_cons] at this
      omega
    simp only [dupBytes, List.get] at hb
    simp only [dupBytes, List.set, undupBytes, if_pos rfl]
    rw [undup_set_ne xs j b h2 hb]
    rfl

def toyAead : AeadCipher where
  enc := fun _ _ p => (dupBytes p, zeroTag)
  dec := fun _ _ c t => if t = zeroTag then undupBytes c else none
  authFailMsg := "authentication failure".toList
  tag_len := by
    intro k iv p
    simp [zeroTag, AUTH_TAG_LENGTH]
  ct_ne_nil := by
    intro k iv p hp
    cases p with
    | nil => exact absurd rfl hp
    | cons x xs => simp [dupBytes]
  dec_enc := by
    intro k iv p
    simp [undup_dup p]
  dec_tamper_ct := by
    intro k iv p i b h hb
    show (if zeroTag = zeroTag then undupBytes ((dupBytes p).set i b)
        else none) = none
    rw [if_pos rfl]
    exact undup_set_ne p i b h hb
  dec_tamper_tag := by
    intro k iv p t ht
    show (if t = zeroTag then undupBytes (dupBytes p) else none) = none
    rw [if_neg ht]

/-- Witness for C3: round trip at a concrete plaintext and nonce. -/
theorem c3_decrypt_encrypt_roundtrip_witness :
    cryptoDecrypt toyAead []
      (cryptoEncrypt toyAead [] (List.replicate 12 (0 : Byte)) [3, 7])
      = Except.ok [3, 7] :=
  (c3_decrypt_encrypt_roundtrip toyAead [] (List.replicate 12 0) [3, 7]
    (by decide)).1

/-- Witness for C4: flipping the first ciphertext byte of a concrete token
is reported as the integrity error. -/
theorem c4_tamper_yields_integrity_error_witness :
    cryptoDecrypt toyAead []
      (bytesToHex (List.replicate 12 (0 : Byte))
        ++ ':' :: (bytesToHex
            (toyAead.enc [] (List.replicate 12 (0 : Byte)) [3]).2
          ++ ':' :: bytesToHex
            ((toyAead.enc [] (List.replicate 12 (0 : Byte)) [3]).1.set 0 1)))
      = Except.error DecryptFailure.tamperedData :=
  (c4_tamper_yields_integrity_error toyAead [] (List.replicate 12 0) [3]
    (by decide) (Or.inr (by decide))).1 0 1 (by decide) (by decide)

/-! ## Field-level secret handling (src: models/Deployment) -/

/-- Source: `isEncryptedFormat` — exactly three colon-separated parts, each
matching the nonempty-hex pattern of `/^[0-9a-fA-F]+$/`; a falsy value is
rejected up front. -/
def isEncryptedFormat (value : List Char) : Bool :=
  if value = [] then false
  else
    decide ((splitOnChar ':' value).length = 3)
      && (splitOnChar ':' value).all
          (fun part => decide (part ≠ []) && part.all isHexDigit)

/-- Source: the `safeDecrypt` helper inside
`DeploymentSchema.methods.decryptSecrets`, parameterized by the decryption
function it delegates to (`cryptoService.decrypt` in the source): an absent
or empty value yields `undefined`; a value failing the encrypted format is
returned as-is as legacy plaintext; only values in the format reach the
cipher, and a cipher failure propagates. -/
def safeDecryptWith
    (decryptFn : List Char → Except DecryptFailure (List Char))
    (value : Option (List Char)) :
    Except DecryptFailure (Option (List Char)) :=
  match value with
  | none => Except.ok none
  | some v =>
    if v = [] then Except.ok none
    else if isEncryptedFormat v = false then Except.ok (some v)
    else (decryptFn v).map some

/-- The fields of the `secrets` subdocument of the deployment schema. -/
inductive SecretField
  | openaiApiKey
  | anthropicApiKey
  | telegramBotToken
  | googleApiKey
  | webUiToken
deriving DecidableEq, Repr

/-- Source: `ENCRYPTED_FIELDS` in models/Deployment.  (`googleApiKey` is a
schema secret field but does not appear in this list.) -/
def ENCRYPTED_FIELDS : List SecretField :=
  [SecretField.openaiApiKey, SecretField.anthropicApiKey,
    SecretField.telegramBotToken, SecretField.webUiToken]

/-- The `secrets` subdocument: each schema field is absent or holds a
stored string. -/
def SecretsMap : Type := SecretField → Option (List Char)

/-- UTF-8 encoding of one character (what `cipher.update(_, 'utf8')`
performs on each character). -/
def charToBytes (c : Char) : List Byte :=
  if c.toNat < 128 then
    [⟨c.toNat % 256, Nat.mod_lt _ (by omega)⟩]
  else if c.toNat < 2048 then
    [⟨(192 + c.toNat / 64) % 256, Nat.mod_lt _ (by omega)⟩,
      ⟨(128 + c.toNat % 64) % 256, Nat.mod_lt _ (by omega)⟩]
  else if c.toNat < 65536 then
    [⟨(224 + c.toNat / 4096) % 256, Nat.mod_lt _ (by omega)⟩,
      ⟨(128 + (c.toNat / 64) % 64) % 256, Nat.mod_lt _ (by omega)⟩,
      ⟨(128 + c.toNat % 64) % 256, Nat.mod_lt _ (by omega)⟩]
  else
    [⟨(240 + c.toNat / 262144) % 256, Nat.mod_lt _ (by omega)⟩,
      ⟨(128 + (c.toNat / 4096) % 64) % 256, Nat.mod_lt _ (by omega)⟩,
      ⟨(128 + (c.toNat / 64) % 64) % 256, Nat.mod_lt _ (by omega)⟩,
      ⟨(128 + c.toNat % 64) % 256, Nat.mod_lt _ (by omega)⟩]

def strToBytes : List Char → List Byte
  | [] => []
  | c :: cs => charToBytes c ++ strToBytes cs

/-- Source: the `DeploymentSchema.pre('save')` hook — when the secrets
subdocument was modified, each `ENCRYPTED_FIELDS` entry that is present,
non-empty and not already in the encrypted format is replaced by its
encryption; every other stored field is left as it is.  `ivFor` supplies
the per-call random nonce. -/
def preSaveEncryptSecrets (G : AeadCipher) (key : List Byte)
    (ivFor : SecretField → List Byte) (secretsModified : Bool)
    (secrets : SecretsMap) : SecretsMap :=
  if secretsModified = false then secrets
  else fun f =>
    if ENCRYPTED_FIELDS.contains f then
      match secrets f with
      | none => none
      | some v =>
        if v ≠ [] ∧ isEncryptedFormat v = false then
          some (cryptoEncrypt G key (ivFor f) (strToBytes v))
        else some v
    else secrets f

/-- A concrete secrets subdocument for the C6 counterexample: a plaintext
`googleApiKey` and an empty `webUiToken`. -/
def secretsGoogle : SecretsMap := fun f =>
  match f with
  | SecretField.googleApiKey => some ("plainsecret".toList)
  | SecretField.webUiToken => some []
  | _ => none

/-- A concrete secrets subdocument holding one legacy-plaintext key. -/
def secretsLegacy : SecretsMap := fun f =>
  match f with
  | SecretField.openaiApiKey => some ("sk-abc".toList)
  | _ => none

/-! ## Theorems: field-level secret handling -/

/-- C5: a processed secret value that does not split into exactly three
nonempty hex segments is classified as legacy plaintext and returned
as-is — never a decryption error — independently of the cipher
(`safeDecryptWith` never consults `decryptFn` on such values); and only
values in the three-part hex-token format are passed to the cipher. -/
theorem c5_legacy_plaintext_passthrough
    (d1 d2 : List Char → Except DecryptFailure (List Char)) (v : List Char)
    (hne : v ≠ []) (hfmt : isEncryptedFormat v = false) :
    safeDecryptWith d1 (some v) = Except.ok (some v)
    ∧ safeDecryptWith d1 (some v) = safeDecryptWith d2 (some v)
    ∧ ∀ w : List Char, isEncryptedFormat w = true →
        safeDecryptWith d1 (some w) = (d1 w).map some := by
  refine ⟨?_, ?_, ?_⟩
  · show (if v = [] then Except.ok none
      else if isEncryptedFormat v = false then Except.ok (some v)
      else Except.map some (d1 v)) = Except.ok (some v)
    rw [if_neg hne, if_pos hfmt]
  · show (if v = [] then Except.ok none
      else if isEncryptedFormat v = false then Except.ok (some v)
      else Except.map some (d1 v))
      = (if v = [] then Except.ok none
        else if isEncryptedFormat v = false then Except.ok (some v)
        else Except.map some (d2 v))
    rw [if_neg hne, if_pos hfmt, if_neg hne, if_pos hfmt]
  · intro w hw
    have hwne : ¬(w = []) := by
      intro he
      subst he
      simp [isEncryptedFormat] at hw
    show (if w = [] then Except.ok none
      else if isEncryptedFormat w = false then Except.ok (some w)
      else Except.map some (d1 w)) = Except.map some (d1 w)
    rw [if_neg hwne, if_neg (by rw [hw]; simp)]

/-- Witness for C5 at a concrete legacy value: a non-token string passes
through unchanged whatever the cipher does. -/
theorem c5_legacy_plaintext_passthrough_witness :
    safeDecryptWith (fun w => Except.ok w) (some ("plain".toList))
      = Except.ok (some ("plain".toList))
    ∧ safeDecryptWith (fun w => Except.ok w) (some ("plain".toList))
      = safeDecryptWith (fun _ => Except.error DecryptFailure.tamperedData)
          (some ("plain".toList)) := by
  have h := c5_legacy_plaintext_passthrough (fun w => Except.ok w)
    (fun _ => Except.error DecryptFailure.tamperedData) ("plain".toList)
    (by decide) (by decide)
  exact ⟨h.1, h.2.1⟩

theorem bytesToHex_ne_nil (bs : List Byte) (h : bs ≠ []) :
    bytesToHex bs ≠ [] := by
  cases bs with
  | nil => exact absurd rfl h
  | cons b bs => rw [bytesToHex_cons]; simp

theorem charToBytes_ne_nil (c : Char) : charToBytes c ≠ [] := by
  unfold charToBytes
  split_ifs <;> simp

theorem strToBytes_ne_nil (v : List Char) (h : v ≠ []) :
    strToBytes v ≠ [] := by
  cases v with
  | nil => exact absurd rfl h
  | cons c cs =>
    simp only [strToBytes]
    intro he
    rw [List.append_eq_nil] at he
    exact charToBytes_ne_nil c he.1

/-- The token produced by `encrypt` satisfies `isEncryptedFormat` whenever
the nonce and the plaintext are nonempty. -/
theorem cryptoEncrypt_isEncryptedFormat (G : AeadCipher)
    (key iv p : List Byte) (hiv : iv ≠ []) (hp : p ≠ []) :
    isEncryptedFormat (cryptoEncrypt G key iv p) = true := by
  have hsplit := splitOnChar_token (bytesToHex iv)
    (bytesToHex (G.enc key iv p).2) (bytesToHex (G.enc key iv p).1)
    (colon_not_mem_bytesToHex _) (colon_not_mem_bytesToHex _)
    (colon_not_mem_bytesToHex _)
  have htag_ne : (G.enc key iv p).2 ≠ [] := by
    intro he
    have := G.tag_len key iv p
    rw [he] at this
    simp [AUTH_TAG_LENGTH] at this
  unfold isEncryptedFormat cryptoEncrypt
  rw [if_neg (by simp [List.append_eq_nil])]
  rw [hsplit]
  simp only [List.length_cons, List.length_nil, List.all_cons, List.all_nil]
  have hvalid : ∀ bs : List Byte, (bytesToHex bs).all isHexDigit = true :=
    fun bs => bytesToHex_valid bs
  rw [hvalid, hvalid, hvalid]
  simp [bytesToHex_ne_nil iv hiv, bytesToHex_ne_nil _ htag_ne,
    bytesToHex_ne_nil _ (G.ct_ne_nil key iv p hp)]

/-- C6 (amended): after a save with modified secrets, every field of
`ENCRYPTED_FIELDS` that is present with a non-empty value is stored in the
three-part hex token form — already-formatted values are kept, and legacy
plaintext is re-encrypted on that write. -/
theorem c6_listed_fields_stored_encrypted (G : AeadCipher) (key : List Byte)
    (ivFor : SecretField → List Byte) (secrets : SecretsMap)
    (f : SecretField) (v : List Char)
    (hiv : ivFor f ≠ [])
    (hf : ENCRYPTED_FIELDS.contains f = true)
    (hv : secrets f = some v) (hne : v ≠ []) :
    ∃ w, preSaveEncryptSecrets G key ivFor true secrets f = some w
      ∧ isEncryptedFormat w = true
      ∧ (isEncryptedFormat v = true → w = v)
      ∧ (isEncryptedFormat v = false →
          w = cryptoEncrypt G key (ivFor f) (strToBytes v)) := by
  unfold preSaveEncryptSecrets
  rw [if_neg (by simp), if_pos hf, hv]
  by_cases hfmt : isEncryptedFormat v = true
  · refine ⟨v, ?_, hfmt, fun _ => rfl, fun hc => ?_⟩
    · show (if v ≠ [] ∧ isEncryptedFormat v = false then
          some (cryptoEncrypt G key (ivFor f) (strToBytes v))
        else some v) = some v
      rw [if_neg (by simp [hfmt])]
    · rw [hfmt] at hc
      cases hc
  · have hfmt' : isEncryptedFormat v = false := by
      cases h : isEncryptedFormat v
      · rfl
      · exact absurd h hfmt
    refine ⟨cryptoEncrypt G key (ivFor f) (strToBytes v), ?_, ?_,
      fun hc => absurd hc hfmt, fun _ => rfl⟩
    · show (if v ≠ [] ∧ isEncryptedFormat v = false then
          some (cryptoEncrypt G key (ivFor f) (strToBytes v))
        else some v) = some (cryptoEncrypt G key (ivFor f) (strToBytes v))
      rw [if_pos ⟨hne, hfmt'⟩]
    · exact cryptoEncrypt_isEncryptedFormat G key (ivFor f) (strToBytes v)
        hiv (strToBytes_ne_nil v hne)

/-- Witness for C6 (amended) at a concrete legacy plaintext key. -/
theorem c6_listed_fields_stored_encrypted_witness :
    ∃ w, preSaveEncryptSecrets toyAead []
        (fun _ => List.replicate 12 (0 : Byte)) true secretsLegacy
        SecretField.openaiApiKey = some w
      ∧ isEncryptedFormat w = true
      ∧ (isEncryptedFormat ("sk-abc".toList) = true → w = "sk-abc".toList)
      ∧ (isEncryptedFormat ("sk-abc".toList) = false →
          w = cryptoEncrypt toyAead [] (List.replicate 12 (0 : Byte))
            (strToBytes ("sk-abc".toList))) :=
  c6_listed_fields_stored_encrypted toyAead []
    (fun _ => List.replicate 12 (0 : Byte)) secretsLegacy
    SecretField.openaiApiKey ("sk-abc".toList) (by decide) (by decide) rfl
    (by decide)

/-- Counterexample to C6 as stated: with modified secrets,
`googleApiKey` — a present secret credential field of the schema — is left
as stored plaintext by the save hook (it is not in `ENCRYPTED_FIELDS`), and
an empty `webUiToken` is likewise left out of the token format. -/
theorem c6_counterexample :
    preSaveEncryptSecrets toyAead [] (fun _ => List.replicate 12 (0 : Byte))
        true secretsGoogle SecretField.googleApiKey
      = some ("plainsecret".toList)
    ∧ isEncryptedFormat ("plainsecret".toList) = false
    ∧ preSaveEncryptSecrets toyAead []
        (fun _ => List.replicate 12 (0 : Byte)) true secretsGoogle
        SecretField.webUiToken = some []
    ∧ isEncryptedFormat [] = false := by
  refine ⟨?_, by decide, ?_, by decide⟩
  · rfl
  · rfl

/-! ## Spawn retry logic (src: services/DockerService.spawnAgent) -/

/-- The outcome of one attempt of the create-and-start sequence inside
`spawnAgent`'s `try` block: the container id on success, or the thrown
error message on failure. -/
inductive SpawnAttempt
  | success (containerId : String)
  | failure (msg : List Char)
deriving DecidableEq, Repr

/-- The message test of `spawnAgent`'s `catch` block:
`error.message?.includes('port is already allocated')`. -/
def msgHasPortCollision (msg : List Char) : Bool :=
  containsSub ("port is already allocated".toList) msg

/-- Source: the retry shape of `spawnAgent` — a failure whose message
indicates a runtime port collision re-invokes the whole sequence
(`return this.spawnAgent(deployment, secrets)`), unconditionally and with
no attempt counter; any other failure transitions to `error` and is
rethrown.  The list supplies the outcome of each successive attempt;
`none` means every listed attempt collided and the modelled run has not
terminated. -/
def runSpawnAttempts : List SpawnAttempt → Option (Except (List Char) String)
  | [] => none
  | SpawnAttempt.success cid :: _ => some (Except.ok cid)
  | SpawnAttempt.failure msg :: rest =>
    if msgHasPortCollision msg then runSpawnAttempts rest
    else some (Except.error msg)

/-- How many attempts a run consumes. -/
def spawnAttemptCount : List SpawnAttempt → Nat
  | [] => 0
  | SpawnAttempt.success _ :: _ => 1
  | SpawnAttempt.failure msg :: rest =>
    if msgHasPortCollision msg then 1 + spawnAttemptCount rest else 1

/-! ## Theorems: spawn retry -/

/-- C7 (amended): the port-collision retry is unbounded self-reinvocation —
after any number `n` of successive port-collision failures the sequence is
still re-attempted, the run's result is that of the first non-collision
attempt, and the attempt count is `n` plus the count of the rest; no
maximum-attempts bound exists. -/
theorem c7_port_collision_retry_unbounded (n : Nat)
    (rest : List SpawnAttempt) (msg : List Char)
    (hmsg : msgHasPortCollision msg = true) :
    runSpawnAttempts
        (List.replicate n (SpawnAttempt.failure msg) ++ rest)
      = runSpawnAttempts rest
    ∧ spawnAttemptCount
        (List.replicate n (SpawnAttempt.failure msg) ++ rest)
      = n + spawnAttemptCount rest := by
  induction n with
  | zero => simp
  | succ n ih =>
    rw [List.replicate_succ, List.cons_append]
    constructor
    · simp only [runSpawnAttempts, hmsg, if_true]
      exact ih.1
    · simp only [spawnAttemptCount, hmsg, if_true]
      rw [ih.2]
      omega

/-- Witness for C7 (amended): three successive collisions are all
retried. -/
theorem c7_port_collision_retry_unbounded_witness :
    runSpawnAttempts
        (List.replicate 3
            (SpawnAttempt.failure ("port is already allocated".toList))
          ++ [SpawnAttempt.success "c1"])
      = runSpawnAttempts [SpawnAttempt.success "c1"]
    ∧ spawnAttemptCount
        (List.replicate 3
            (SpawnAttempt.failure ("port is already allocated".toList))
          ++ [SpawnAttempt.success "c1"])
      = 3 + spawnAttemptCount [SpawnAttempt.success "c1"] :=
  c7_port_collision_retry_unbounded 3 [SpawnAttempt.success "c1"]
    ("port is already allocated".toList) (by decide)

/-- Counterexample to C7 as stated: a run in which three successive
attempts fail with the port-collision message is retried after each of
them — four attempts in all, exceeding the claimed bound of exactly one
retry — and still succeeds on the fourth attempt. -/
theorem c7_counterexample :
    runSpawnAttempts
        [SpawnAttempt.failure ("port is already allocated".toList),
          SpawnAttempt.failure ("port is already allocated".toList),
          SpawnAttempt.failure ("port is already allocated".toList),
          SpawnAttempt.success "c1"]
      = some (Except.ok "c1")
    ∧ spawnAttemptCount
        [SpawnAttempt.failure ("port is already allocated".toList),
          SpawnAttempt.failure ("port is already allocated".toList),
          SpawnAttempt.failure ("port is already allocated".toList),
          SpawnAttempt.success "c1"]
      = 4 := by
  constructor
  · rfl
  · rfl

/-! ## Reconciler (src: services/ReaperService.reconcileState) -/

/-- Source: the sweep's store query — deployments the store believes are
running: status `healthy` or `starting` with a recorded `containerId`. -/
def reaperSelect (store : List DeploymentRecord) : List DeploymentRecord :=
  store.filter (fun d =>
    (decide (d.status = DeploymentStatus.healthy)
      || decide (d.status = DeploymentStatus.starting))
    && d.containerId.isSome)

/-- The zombie test
`!activeContainerIds.has(deployment.containerId)`. -/
def isZombie (liveIds : List String) (d : DeploymentRecord) : Bool :=
  match d.containerId with
  | some c => !(liveIds.contains c)
  | none => false

/-- Source: the corrective update — status to `error`, the fixed error
message, and clearing `containerId`/`internalPort`. -/
def reaperCorrect (d : DeploymentRecord) : DeploymentRecord :=
  { d with
    status := DeploymentStatus.error
    errorMessage := some "Container died unexpectedly"
    containerId := none
    internalPort := none }

/-- Source: the sweep's batching of the selected deployments
(`batchSize = 5`). -/
def toBatches5 : List DeploymentRecord → List (List DeploymentRecord)
  | [] => []
  | d :: ds => (d :: ds.take 4) :: toBatches5 (ds.drop 4)
termination_by l => l.length
decreasing_by
  simp only [List.length_drop, List.length_cons]
  omega

/-- The corrective updates (deployment id, corrected record) one sweep
issues, batch by batch. -/
def sweepUpdates (liveIds : List String) (store : List DeploymentRecord) :
    List (Nat × DeploymentRecord) :=
  ((toBatches5 (reaperSelect store)).map (fun batch =>
    batch.filterMap (fun d =>
      if isZombie liveIds d then some (d.id, reaperCorrect d)
      else none))).flatten

/-! ## Theorems: reconciler -/

theorem toBatches5_flatten : ∀ l : List DeploymentRecord,
    (toBatches5 l).flatten = l := by
  intro l
  induction l using toBatches5.induct with
  | case1 => rw [toBatches5]; rfl
  | case2 d ds ih =>
    rw [toBatches5]
    simp only [List.flatten_cons, ih, List.cons_append]
    rw [List.take_append_drop]

theorem flatten_map_filterMap {α β : Type}
    (g : α → Option β) : ∀ ll : List (List α),
    (ll.map (fun l => l.filterMap g)).flatten = ll.flatten.filterMap g := by
  intro ll
  induction ll with
  | nil => rfl
  | cons l ls ih =>
    simp only [List.map_cons, List.flatten_cons, ih, List.filterMap_append]

/-- C8: one reconciler sweep issues, for every deployment in status
`healthy` or `starting` whose recorded container id is absent from the
runtime's live set, the corrective update — status `error`, the fixed
message "Container died unexpectedly", `containerId` and `internalPort`
cleared, the other fields untouched — and the batched processing equals a
pointwise pass over the selected deployments, so each deployment's
correction is independent of the others in the batch. -/
theorem c8_reaper_sweep (liveIds : List String)
    (store : List DeploymentRecord) :
    (sweepUpdates liveIds store
      = (reaperSelect store).filterMap (fun d =>
          if isZombie liveIds d then some (d.id, reaperCorrect d)
          else none))
    ∧ (∀ d ∈ store,
        (d.status = DeploymentStatus.healthy
          ∨ d.status = DeploymentStatus.starting) →
        ∀ c, d.containerId = some c → liveIds.contains c = false →
        (d.id, reaperCorrect d) ∈ sweepUpdates liveIds store)
    ∧ (∀ d : DeploymentRecord,
        (reaperCorrect d).status = DeploymentStatus.error
        ∧ (reaperCorrect d).errorMessage
            = some "Container died unexpectedly"
        ∧ (reaperCorrect d).containerId = none
        ∧ (reaperCorrect d).internalPort = none
        ∧ (reaperCorrect d).id = d.id
        ∧ (reaperCorrect d).subdomain = d.subdomain) := by
  have hflat : sweepUpdates liveIds store
      = (reaperSelect store).filterMap (fun d =>
          if isZombie liveIds d then some (d.id, reaperCorrect d)
          else none) := by
    unfold sweepUpdates
    rw [flatten_map_filterMap, toBatches5_flatten]
  refine ⟨hflat, ?_, ?_⟩
  · intro d hd hstatus c hc hlive
    rw [hflat]
    rw [List.mem_filterMap]
    refine ⟨d, ?_, ?_⟩
    · unfold reaperSelect
      rw [List.mem_filter]
      refine ⟨hd, ?_⟩
      rcases hstatus with h | h <;> simp [h, hc]
    · have hz : isZombie liveIds d = true := by
        unfold isZombie
        rw [hc]
        show (!liveIds.contains c) = true
        rw [hlive]
        rfl
      rw [if_pos hz]
  · intro d
    exact ⟨rfl, rfl, rfl, rfl, rfl, rfl⟩

/-- A concrete zombie deployment for the C8 witness. -/
def zombieRecord : DeploymentRecord :=
  { id := 1
    subdomain := "acme".toList
    status := DeploymentStatus.healthy
    containerId := some "c1"
    internalPort := some 23000
    errorMessage := none
    provisioningStep := none
    lastHeartbeat := none }

/-- Witness for C8: a healthy deployment whose container is not in the
live set receives the corrective update in one sweep. -/
theorem c8_reaper_sweep_witness :
    (zombieRecord.id, reaperCorrect zombieRecord)
      ∈ sweepUpdates ["cX"] [zombieRecord] :=
  (c8_reaper_sweep ["cX"] [zombieRecord]).2.1 zombieRecord
    (List.mem_singleton.mpr rfl) (Or.inl rfl) "c1" rfl (by decide)

/-! ## Subdomain router (src: middleware/proxy) -/

def lowercase (s : List Char) : List Char := s.map Char.toLower

/-- Source: `ProxyManager.extractSubdomain` — strip the port, split on
dots, take the first label when there are at least three labels, or two
labels with `localhost`. -/
def extractSubdomain (host : List Char) : Option (List Char) :=
  match splitOnChar '.' (host.takeWhile (fun c => c != ':')) with
  | p0 :: _ :: _ :: _ => some (lowercase p0)
  | [p0, p1] =>
    if p1 = "localhost".toList then some (lowercase p0) else none
  | _ => none

/-- Source: the reserved-label denylist of `ProxyManager.isMainDomain`. -/
def mainDomains : List (List Char) :=
  ["www".toList, "api".toList, "app".toList, "admin".toList,
    "dashboard".toList, "auth".toList]

def isMainDomain (subdomain : List Char) : Bool :=
  mainDomains.contains (lowercase subdomain)

/-- Source: `Deployment.findBySubdomain`
(`findOne` on the lowercased subdomain). -/
def findBySubdomain (store : List DeploymentRecord)
    (subdomain : List Char) : Option DeploymentRecord :=
  store.find? (fun d => d.subdomain == lowercase subdomain)

/-- Source: `ProxyManager.getDeployment` on a cache miss — a deployment
without a truthy `internalPort` (absent, or 0, which is falsy in
JavaScript) is treated the same as no deployment at all. -/
def getDeploymentRoute (store : List DeploymentRecord)
    (subdomain : List Char) : Option (Nat × DeploymentStatus) :=
  match findBySubdomain store subdomain with
  | none => none
  | some d =>
    match d.internalPort with
    | none => none
    | some port => if port = 0 then none else some (port, d.status)

/-- The observable routing decision of `ProxyManager.middleware`. -/
inductive RouteAction
  | passThrough
  | jsonResponse (statusCode : Nat) (errorCode : String)
      (message : List Char) (statusField : Option DeploymentStatus)
  | proxyTo (target : List Char)
deriving DecidableEq, Repr

open DeploymentStatus in
/-- Source: the per-state rows of `statusMessages` in
`handleNonHealthyDeployment`; the `healthy` row is the fallback message of
the `||` default, unreachable through the middleware. -/
def nonHealthyMessage : DeploymentStatus → List Char
  | idle => "Agent is idle. Please start the deployment.".toList
  | configuring => "Agent is being configured...".toList
  | provisioning => "Agent is provisioning...".toList
  | starting => "Agent is starting up...".toList
  | restarting => "Agent is restarting...".toList
  | stopped => "Agent is stopped. Please start the deployment.".toList
  | error => "Agent encountered an error. Please check logs.".toList
  | healthy => "Agent is not ready.".toList

/-- The middleware's handling of a resolved, non-reserved subdomain:
no (routable) deployment gives the 404 naming the subdomain; a non-healthy
deployment gives the status-specific 503; a healthy one is proxied to
`127.0.0.1` at its recorded port. -/
def routeResolved (store : List DeploymentRecord)
    (sub : List Char) : RouteAction :=
  if isMainDomain sub then RouteAction.passThrough
  else
    match getDeploymentRoute store sub with
    | none =>
      RouteAction.jsonResponse 404 "DEPLOYMENT_NOT_FOUND"
        ("No agent found for subdomain: ".toList ++ sub) none
    | some (port, status) =>
      if status = DeploymentStatus.healthy then
        RouteAction.proxyTo
          ("http://127.0.0.1:".toList ++ (Nat.repr port).toList)
      else
        RouteAction.jsonResponse 503 "AGENT_NOT_READY"
          (nonHealthyMessage status) (some status)

/-- Source: `ProxyManager.middleware` — pass through without a resolvable
subdomain, then route as `routeResolved`. -/
def proxyMiddleware (store : List DeploymentRecord)
    (host : List Char) : RouteAction :=
  match extractSubdomain host with
  | none => RouteAction.passThrough
  | some sub => routeResolved store sub

/-! ## Theorems: subdomain router -/

theorem proxyMiddleware_resolved (store : List DeploymentRecord)
    (host sub : List Char) (hsub : extractSubdomain host = some sub) :
    proxyMiddleware store host = routeResolved store sub := by
  unfold proxyMiddleware
  rw [hsub]

/-- C9 (amended): for a request whose host resolves to a non-reserved
subdomain — if no deployment is routable for that subdomain the router
returns the 404 response naming the subdomain; if a deployment with a
recorded nonzero `internalPort` exists and its status is not `healthy`,
it returns the status-specific 503 naming that state; and only a
`healthy` deployment is proxied to `127.0.0.1` at its recorded port. -/
theorem c9_router_decisions (store : List DeploymentRecord)
    (host sub : List Char)
    (hsub : extractSubdomain host = some sub)
    (hmain : isMainDomain sub = false) :
    (findBySubdomain store sub = none →
      proxyMiddleware store host
        = RouteAction.jsonResponse 404 "DEPLOYMENT_NOT_FOUND"
            ("No agent found for subdomain: ".toList ++ sub) none)
    ∧ (∀ (d : DeploymentRecord) (port : Nat),
        findBySubdomain store sub = some d →
        d.internalPort = some port → port ≠ 0 →
        d.status ≠ DeploymentStatus.healthy →
        proxyMiddleware store host
          = RouteAction.jsonResponse 503 "AGENT_NOT_READY"
              (nonHealthyMessage d.status) (some d.status))
    ∧ (∀ (d : DeploymentRecord) (port : Nat),
        findBySubdomain store sub = some d →
        d.internalPort = some port → port ≠ 0 →
        d.status = DeploymentStatus.healthy →
        proxyMiddleware store host
          = RouteAction.proxyTo
              ("http://127.0.0.1:".toList ++ (Nat.repr port).toList)) := by
  have hmain' : ¬(isMainDomain sub = true) := by rw [hmain]; simp
  refine ⟨?_, ?_, ?_⟩
  · intro hfind
    rw [proxyMiddleware_resolved store host sub hsub]
    unfold routeResolved
    rw [if_neg hmain']
    have hroute : getDeploymentRoute store sub = none := by
      unfold getDeploymentRoute
      rw [hfind]
    rw [hroute]
  · intro d port hfind hport hport0 hstatus
    rw [proxyMiddleware_resolved store host sub hsub]
    unfold routeResolved
    rw [if_neg hmain']
    have hroute : getDeploymentRoute store sub = some (port, d.status) := by
      unfold getDeploymentRoute
      rw [hfind]
      show (match d.internalPort with
        | none => none
        | some port =>
          if port = 0 then none else some (port, d.status))
        = some (port, d.status)
      rw [hport]
      show (if port = 0 then none else some (port, d.status))
        = some (port, d.status)
      rw [if_neg hport0]
    rw [hroute]
    show (if d.status = DeploymentStatus.healthy then
        RouteAction.proxyTo
          ("http://127.0.0.1:".toList ++ (Nat.repr port).toList)
      else RouteAction.jsonResponse 503 "AGENT_NOT_READY"
        (nonHealthyMessage d.status) (some d.status))
      = RouteAction.jsonResponse 503 "AGENT_NOT_READY"
          (nonHealthyMessage d.status) (some d.status)
    rw [if_neg hstatus]
  · intro d port hfind hport hport0 hstatus
    rw [proxyMiddleware_resolved store host sub hsub]
    unfold routeResolved
    rw [if_neg hmain']
    have hroute : getDeploymentRoute store sub = some (port, d.status) := by
      unfold getDeploymentRoute
      rw [hfind]
      show (match d.internalPort with
        | none => none
        | some port =>
          if port = 0 then none else some (port, d.status))
        = some (port, d.status)
      rw [hport]
      show (if port = 0 then none else some (port, d.status))
        = some (port, d.status)
      rw [if_neg hport0]
    rw [hroute]
    show (if d.status = DeploymentStatus.healthy then
        RouteAction.proxyTo
          ("http://127.0.0.1:".toList ++ (Nat.repr port).toList)
      else RouteAction.jsonResponse 503 "AGENT_NOT_READY"
        (nonHealthyMessage d.status) (some d.status))
      = RouteAction.proxyTo
          ("http://127.0.0.1:".toList ++ (Nat.repr port).toList)
    rw [if_pos hstatus]

/-- C10: a deployment record that exists for the resolved subdomain but
has no `internalPort` set is treated as absent: the router answers with
the 404 "deployment not found" response naming the subdomain, not a
status-specific 503. -/
theorem c10_missing_port_treated_as_absent (store : List DeploymentRecord)
    (host sub : List Char) (d : DeploymentRecord)
    (hsub : extractSubdomain host = some sub)
    (hmain : isMainDomain sub = false)
    (hfind : findBySubdomain store sub = some d)
    (hport : d.internalPort = none) :
    proxyMiddleware store host
      = RouteAction.jsonResponse 404 "DEPLOYMENT_NOT_FOUND"
          ("No agent found for subdomain: ".toList ++ sub) none := by
  have hmain' : ¬(isMainDomain sub = true) := by rw [hmain]; simp
  rw [proxyMiddleware_resolved store host sub hsub]
  unfold routeResolved
  rw [if_neg hmain']
  have hroute : getDeploymentRoute store sub = none := by
    unfold getDeploymentRoute
    rw [hfind]
    show (match d.internalPort with
      | none => none
      | some port =>
        if port = 0 then none else some (port, d.status)) = none
    rw [hport]
  rw [hroute]

/-- A deployment existing for subdomain `acme` with status `idle` and no
port (the freshly created shape). -/
def acmeIdleRecord : DeploymentRecord :=
  { id := 7
    subdomain := "acme".toList
    status := DeploymentStatus.idle
    containerId := none
    internalPort := none
    errorMessage := none
    provisioningStep := none
    lastHeartbeat := none }

/-- The same deployment but with the falsy port 0 recorded. -/
def acmeZeroRecord : DeploymentRecord :=
  { acmeIdleRecord with internalPort := some 0 }

/-- A provisioning deployment for `acme` with a recorded port. -/
def acmeProvRecord : DeploymentRecord :=
  { acmeIdleRecord with
    status := DeploymentStatus.provisioning
    internalPort := some 23000 }

/-- A healthy deployment for `acme` on port 23000. -/
def acmeHealthyRecord : DeploymentRecord :=
  { acmeIdleRecord with
    status := DeploymentStatus.healthy
    containerId := some "c9"
    internalPort := some 23000 }

/-- Counterexample to C9 as stated: a deployment exists for `acme` with
status `idle` (not `healthy`), yet the router answers 404 "not found"
rather than the claimed status-specific 503, because the record has no
`internalPort` — likewise when the recorded port is the falsy 0. -/
theorem c9_counterexample :
    findBySubdomain [acmeIdleRecord] ("acme".toList) = some acmeIdleRecord
    ∧ acmeIdleRecord.status ≠ DeploymentStatus.healthy
    ∧ proxyMiddleware [acmeIdleRecord] ("acme.example.com".toList)
      = RouteAction.jsonResponse 404 "DEPLOYMENT_NOT_FOUND"
          ("No agent found for subdomain: ".toList ++ "acme".toList) none
    ∧ proxyMiddleware [acmeZeroRecord] ("acme.example.com".toList)
      = RouteAction.jsonResponse 404 "DEPLOYMENT_NOT_FOUND"
          ("No agent found for subdomain: ".toList ++ "acme".toList) none := by
  refine ⟨rfl, by decide, rfl, rfl⟩

/-- Witness for C9 (amended): with a recorded port, a provisioning
deployment gets the status-specific 503 and a healthy one is proxied to
its port. -/
theorem c9_router_decisions_witness :
    proxyMiddleware [acmeProvRecord] ("acme.example.com".toList)
      = RouteAction.jsonResponse 503 "AGENT_NOT_READY"
          (nonHealthyMessage DeploymentStatus.provisioning)
          (some DeploymentStatus.provisioning)
    ∧ proxyMiddleware [acmeHealthyRecord] ("acme.example.com".toList)
      = RouteAction.proxyTo
          ("http://127.0.0.1:".toList ++ (Nat.repr 23000).toList) := by
  constructor
  · exact (c9_router_decisions [acmeProvRecord] ("acme.example.com".toList)
      ("acme".toList) rfl (by decide)).2.1 acmeProvRecord 23000 rfl rfl
      (by decide) (by decide)
  · exact (c9_router_decisions [acmeHealthyRecord] ("acme.example.com".toList)
      ("acme".toList) rfl (by decide)).2.2 acmeHealthyRecord 23000 rfl rfl
      (by decide) rfl

/-- Witness for C10: the idle, port-less `acme` deployment exists in the
store, yet the router answers the 404 response. -/
theorem c10_missing_port_treated_as_absent_witness :
    proxyMiddleware [acmeIdleRecord] ("acme.localhost".toList)
      = RouteAction.jsonResponse 404 "DEPLOYMENT_NOT_FOUND"
          ("No agent found for subdomain: ".toList ++ "acme".toList) none :=
  c10_missing_port_treated_as_absent [acmeIdleRecord]
    ("acme.localhost".toList) ("acme".toList) acmeIdleRecord rfl (by decide)
    rfl rfl

/-- Witness for C1: asking a `healthy` deployment to move to `configuring`
(an edge absent from the table) is rejected with the invalid-transition
error. -/
theorem c1_transitionTo_matches_spec_table_witness :
    transitionTo acmeHealthyRecord DeploymentStatus.configuring none none 0
      = Except.error "Invalid state transition" :=
  (c1_transitionTo_matches_spec_table acmeHealthyRecord
    DeploymentStatus.configuring none none 0).2 (by decide)

end Backend
